import Mathlib

/-!
Verification development for the `alx-backend-python` coursework repository.

The messaging application (`Django-signals_orm-0x04/messaging/` together with
the cached variant in `messaging/`) is shallowly embedded as pure functions
over an explicit relational state: model rows become Lean structures, the ORM
save pipeline (custom `Message.save`, the `pre_save` handlers
`log_message_edit` and `handle_reply_subject`, the `post_save` handler
`create_message_notification`) becomes an explicit state transformer, and the
manager/queryset operations become list transformations.  The standalone
decorator snippets of `python-decorators-0x01` are embedded as higher-order
functions (`transactional`, `retry_on_failure`, `cache_query`).

Modelling notes, fixed once here:
* Django autoincrement primary keys are ≥ 1, so the Python truthiness test
  `if self.pk:` coincides with `pk is not None`; the embedding dispatches on
  `Option Nat`.  Python truthiness of the `message_ids` argument (where the
  empty list is reachable and significant) is modelled exactly.
* `timestamp` / `last_edited` / `created_at` fields and the `print` logging
  calls are elided: no claim mentions them.
* A foreign-key attribute that Django resolves to a model instance
  (`instance.parent_message`, `instance.sender`, ...) is carried as the
  referenced record itself on the in-memory instance.
-/

/-- A `django.contrib.auth.models.User` row (only the fields the messaging
app reads: the primary key and `username`).  Django model equality compares
primary keys, so all comparisons below compare `uid`. -/
structure User where
  uid : Nat
  username : String
deriving Repr, DecidableEq

/-- A stored `Message` row (`messaging/models.py`, class `Message`): sender
and receiver FKs, subject, content, `is_read`, `edited`, and the optional
self-referential `parent_message` FK stored as a raw id. -/
structure MsgRow where
  id : Nat
  sender : User
  receiver : User
  subject : String
  content : String
  isRead : Bool
  edited : Bool
  parentId : Option Nat
deriving Repr, DecidableEq

/-- A `Notification` row (`messaging/models.py`, class `Notification`):
`user` FK, nullable `message` FK, `notification_type`, `title`,
`message_preview`, `is_read`. -/
structure NotifRow where
  user : User
  messageId : Option Nat
  ntype : String
  title : String
  preview : String
  isRead : Bool
deriving Repr, DecidableEq

/-- A `MessageHistory` row (`messaging/models.py`, class `MessageHistory`):
`message` FK, the snapshotted `old_subject` / `old_content`, and the
`edited_by` FK. -/
structure HistRow where
  messageId : Nat
  oldSubject : String
  oldContent : String
  editedBy : User
deriving Repr, DecidableEq

/-- The relational state the messaging app manipulates: the three tables. -/
structure DB where
  messages : List MsgRow
  notifications : List NotifRow
  histories : List HistRow
deriving Repr, DecidableEq

/-- An in-memory `Message` instance as Python sees it: `pk` is `None` before
the first save, and `parent_message` is the referenced row itself (Django
resolves the FK to an object). -/
structure MsgIn where
  pk : Option Nat
  sender : User
  receiver : User
  subject : String
  content : String
  isRead : Bool
  edited : Bool
  parent : Option MsgRow
deriving Repr, DecidableEq

/-- `Message.objects.get(pk=i)`: first row with the given primary key. -/
def findMsg (db : DB) (i : Nat) : Option MsgRow :=
  db.messages.find? (fun m => m.id == i)

/-- Fresh primary key for an INSERT: one more than the largest id in use
(autoincrement behaviour; concrete choice is irrelevant to the claims). -/
def nextId (db : DB) : Nat :=
  (db.messages.foldr (fun m a => max m.id a) 0) + 1

/-- Materialise an in-memory instance into a row under a given primary key
(the column values the INSERT/UPDATE writes). -/
def toRow (i : Nat) (inst : MsgIn) : MsgRow :=
  { id := i, sender := inst.sender, receiver := inst.receiver
  , subject := inst.subject, content := inst.content
  , isRead := inst.isRead, edited := inst.edited
  , parentId := inst.parent.map (fun p => p.id) }

/-- Load a stored row back into an in-memory instance, resolving the
`parent_message` FK against the database. -/
def loadMsg (db : DB) (row : MsgRow) : MsgIn :=
  { pk := some row.id, sender := row.sender, receiver := row.receiver
  , subject := row.subject, content := row.content
  , isRead := row.isRead, edited := row.edited
  , parent := row.parentId.bind (findMsg db) }

/-- Python's `s.startswith(pre)`: `pre` is a character-wise prefix of `s`.
(Stated on the character lists so that it reduces inside the kernel.) -/
def strBegins (pre s : String) : Bool :=
  pre.data.isPrefixOf s.data

/-- The reply-subject rewrite that appears twice in the source
(`Message.save` and the `handle_reply_subject` `pre_save` handler):
`if self.parent_message and not self.subject.startswith('Re: '):
self.subject = f"Re: {self.parent_message.subject}"`. -/
def reply_subject_adjust (inst : MsgIn) : MsgIn :=
  match inst.parent with
  | some p =>
      if strBegins "Re: " inst.subject then inst
      else { inst with subject := "Re: " ++ p.subject }
  | none => inst

/-- `pre_save` handler `handle_reply_subject` (`messaging/signals.py`): the
rewrite fires only for new replies (`instance.parent_message and not
instance.pk`). -/
def handle_reply_subject (inst : MsgIn) : MsgIn :=
  match inst.pk with
  | none => reply_subject_adjust inst
  | some _ => inst

/-- `message_preview=f"{instance.subject}: {instance.content[:100]}..."`. -/
def msgPreview (inst : MsgIn) : String :=
  inst.subject ++ ": " ++ inst.content.take 100 ++ "..."

/-- `post_save` handler `create_message_notification`
(`messaging/signals.py`, `created=True` branch): the list of `Notification`
rows inserted for a newly created message, in creation order.  For a reply
whose receiver differs from the parent message's sender, the handler first
creates a `'message'` notification for the receiver and then the `'reply'`
notification for the parent's sender; otherwise exactly one notification is
created. -/
def create_message_notification (inst : MsgIn) : List NotifRow :=
  match inst.parent with
  | some p =>
      let replyNotif : NotifRow :=
        { user := p.sender, messageId := inst.pk, ntype := "reply"
        , title := "New reply from " ++ inst.sender.username
        , preview := msgPreview inst, isRead := false }
      if inst.receiver.uid != p.sender.uid then
        { user := inst.receiver, messageId := inst.pk, ntype := "message"
        , title := "New message from " ++ inst.sender.username
        , preview := msgPreview inst, isRead := false } :: [replyNotif]
      else [replyNotif]
  | none =>
      [ { user := inst.receiver, messageId := inst.pk, ntype := "message"
        , title := "New message from " ++ inst.sender.username
        , preview := msgPreview inst, isRead := false } ]

/-- `pre_save` handler `log_message_edit` (`messaging/signals.py`): for an
existing message whose content or subject changed relative to the stored
row, it inserts one `MessageHistory` snapshot (`edited_by` is the sender)
and one `'edit'` `Notification` for the receiver.  A `DoesNotExist` on the
lookup is swallowed (`except ... pass`). -/
def log_message_edit (db : DB) (inst : MsgIn) : List HistRow × List NotifRow :=
  match inst.pk with
  | none => ([], [])
  | some i =>
      match findMsg db i with
      | none => ([], [])
      | some original =>
          if original.content != inst.content || original.subject != inst.subject then
            ( [ { messageId := i, oldSubject := original.subject
                , oldContent := original.content, editedBy := inst.sender } ]
            , [ { user := inst.receiver, messageId := some i, ntype := "edit"
                , title := "Message edited by " ++ inst.sender.username
                , preview := "\x27" ++ original.subject ++ "\x27 was edited"
                , isRead := false } ] )
          else ([], [])

/-- `Message.save` on an existing row (`messaging/models.py`): re-fetch the
original (a missing row raises `DoesNotExist`, modelled as `none`), set the
`edited` flag if subject or content changed, apply the reply-subject rewrite,
then `super().save()` fires `log_message_edit` (and `handle_reply_subject`,
a no-op since `pk` is set) and UPDATEs the row — the whole row, or only the
`is_read` column when called with `update_fields=['is_read']`. -/
def messageSaveUpdate (db : DB) (i : Nat) (inst : MsgIn) (onlyIsRead : Bool) :
    Option DB :=
  match findMsg db i with
  | none => none
  | some original =>
      let inst1 :=
        if original.content != inst.content || original.subject != inst.subject
        then { inst with edited := true } else inst
      let inst2 := reply_subject_adjust inst1
      let hn := log_message_edit db inst2
      let inst3 := handle_reply_subject inst2
      let newRow :=
        if onlyIsRead then { original with isRead := inst3.isRead }
        else toRow i inst3
      some { messages := db.messages.map (fun m => if m.id == i then newRow else m)
           , notifications := db.notifications ++ hn.2
           , histories := db.histories ++ hn.1 }

/-- `Message.save` on a new instance (`pk is None`): the edited-flag check is
skipped, the reply-subject rewrite of `Message.save` applies, `super().save()`
fires `log_message_edit` (a no-op: no `pk`) and `handle_reply_subject` (which
re-applies the same rewrite), the row is INSERTed under a fresh id, and the
`post_save` handler `create_message_notification` runs with `created=True`.
Returns the new state and the assigned id. -/
def messageSaveCreate (db : DB) (inst : MsgIn) : DB × Nat :=
  let inst1 := reply_subject_adjust { inst with pk := none }
  let inst2 := handle_reply_subject inst1
  let i := nextId db
  let row := toRow i inst2
  let ns := create_message_notification { inst2 with pk := some i }
  ( { messages := db.messages ++ [row]
    , notifications := db.notifications ++ ns
    , histories := db.histories }
  , i )

/-- The full `Message.save` entry point, dispatching on the primary key the
way Django does (INSERT when `pk` is unset, otherwise UPDATE). -/
def messageSave (db : DB) (inst : MsgIn) (onlyIsRead : Bool) :
    Option (DB × Nat) :=
  match inst.pk with
  | some i => (messageSaveUpdate db i inst onlyIsRead).map (fun d => (d, i))
  | none => some (messageSaveCreate db inst)

/-- `Message.mark_as_read` (`messaging/models.py`): set `is_read = True` on
the instance and save it with `update_fields=['is_read']`.  Modelled on the
instance freshly loaded from the row with the given id. -/
def message_mark_as_read (db : DB) (mid : Nat) : DB :=
  match findMsg db mid with
  | none => db
  | some row =>
      let inst := { loadMsg db row with isRead := true }
      match messageSave db inst true with
      | some dr => dr.1
      | none => db

/-- Python truthiness of the `message_ids` argument of
`UnreadMessagesManager.mark_as_read`: `None` and the empty list are falsy. -/
def pyTruthyIds : Option (List Nat) → Bool
  | none => false
  | some l => !l.isEmpty

/-- The queryset built by `UnreadMessagesManager.mark_as_read`: unread rows
(`is_read=False` from `get_queryset`) addressed to the user, restricted by
`id__in=message_ids` only when `message_ids` is truthy. -/
def unreadSel (u : User) (messageIds : Option (List Nat)) (m : MsgRow) : Bool :=
  !m.isRead && m.receiver.uid == u.uid &&
    (if pyTruthyIds messageIds then (messageIds.getD []).contains m.id else true)

/-- `UnreadMessagesManager.mark_as_read` (`messaging/models.py`): the
selected queryset is bulk-UPDATEd to `is_read=True` (a queryset `update`
bypasses `Message.save` and all signals).  Returns the new state and the
number of matched rows, as `update` does. -/
def unread_mark_as_read (db : DB) (u : User) (messageIds : Option (List Nat)) :
    DB × Nat :=
  ( { db with messages :=
        db.messages.map (fun m => if unreadSel u messageIds m then { m with isRead := true } else m) }
  , (db.messages.filter (unreadSel u messageIds)).length )

/-- `UnreadMessagesManager.unread_count_for_user`: count of rows with
`is_read=False` and `receiver=user`. -/
def unread_count_for_user (db : DB) (u : User) : Nat :=
  (db.messages.filter (fun m => !m.isRead && m.receiver.uid == u.uid)).length

/-- An HTTP response as far as the claims observe it: the status code and
the rendered template / payload marker. -/
structure HttpResp where
  status : Nat
  body : String
deriving Repr, DecidableEq

/-- The `message_thread` view (`Django-signals_orm-0x04/messaging/views.py`):
`get_object_or_404` yields a 404 for a missing id; a requester who is
neither sender nor receiver gets the `access_denied.html` template rendered
by a plain `render(...)`, i.e. with the default status 200; otherwise the
message is marked read when the receiver views it and the thread template is
rendered with status 200. -/
def message_thread (db : DB) (reqUser : User) (messageId : Nat) :
    HttpResp × DB :=
  match findMsg db messageId with
  | none => ({ status := 404, body := "Not Found" }, db)
  | some root =>
      if root.sender.uid != reqUser.uid && root.receiver.uid != reqUser.uid then
        ({ status := 200, body := "messaging/access_denied.html" }, db)
      else
        let db1 :=
          if root.receiver.uid == reqUser.uid && !root.isRead
          then message_mark_as_read db messageId else db
        ({ status := 200, body := "messaging/message_thread.html" }, db1)

/-- The `conversation_thread_api` view (`messaging/views.py`):
`get_object_or_404` yields a 404 for a missing id; a requester who is
neither sender nor receiver gets `JsonResponse({'error': 'Access denied'},
status=403)`; otherwise the thread JSON with status 200. -/
def conversation_thread_api (db : DB) (reqUser : User) (messageId : Nat) :
    HttpResp :=
  match findMsg db messageId with
  | none => { status := 404, body := "Not Found" }
  | some root =>
      if root.sender.uid != reqUser.uid && root.receiver.uid != reqUser.uid then
        { status := 403, body := "Access denied" }
      else { status := 200, body := "thread" }

/-- Is a message row collected by the cascade triggered by deleting user `u`?
Directly doomed rows have `u` as sender or receiver (`on_delete=CASCADE` on
both FKs); a row whose parent is doomed is doomed in turn (CASCADE on
`parent_message`).  The parent chain is followed with explicit fuel; fuel
`db.messages.length` suffices for any chain inside the table. -/
def userDoomed (db : DB) (u : User) : Nat → MsgRow → Bool
  | 0, m => m.sender.uid == u.uid || m.receiver.uid == u.uid
  | n + 1, m =>
      m.sender.uid == u.uid || m.receiver.uid == u.uid ||
        (match m.parentId.bind (findMsg db) with
         | some p => userDoomed db u n p
         | none => false)

/-- Cascade predicate for deleting user `u`, at full fuel. -/
def userMsgDoomed (db : DB) (u : User) (m : MsgRow) : Bool :=
  userDoomed db u db.messages.length m

/-- Does a nullable message FK point at a row collected by the user-delete
cascade? -/
def msgGoneForUser (db : DB) (u : User) : Option Nat → Bool
  | none => false
  | some i =>
      match findMsg db i with
      | some m => userMsgDoomed db u m
      | none => false

/-- Deleting a `User`: the framework cascade removes every message sent or
received by the user (and, transitively, replies of removed messages), every
notification whose `user` FK or `message` FK is collected, and every history
row whose `edited_by` FK or `message` FK is collected. -/
def delete_user (db : DB) (u : User) : DB :=
  { messages := db.messages.filter (fun m => !userMsgDoomed db u m)
  , notifications := db.notifications.filter
      (fun n => !(n.user.uid == u.uid) && !msgGoneForUser db u n.messageId)
  , histories := db.histories.filter
      (fun h => !(h.editedBy.uid == u.uid) && !msgGoneForUser db u (some h.messageId)) }

/-- Is a message row collected by the cascade triggered by deleting the
message with id `tid`?  The row itself, or any row whose parent chain
reaches it (CASCADE on `parent_message`). -/
def msgDoomed (db : DB) (tid : Nat) : Nat → MsgRow → Bool
  | 0, m => m.id == tid
  | n + 1, m =>
      m.id == tid ||
        (match m.parentId.bind (findMsg db) with
         | some p => msgDoomed db tid n p
         | none => false)

/-- Cascade predicate for deleting message `tid`, at full fuel. -/
def msgRowDoomed (db : DB) (tid : Nat) (m : MsgRow) : Bool :=
  msgDoomed db tid db.messages.length m

/-- Does a nullable message FK point at a row collected by the
message-delete cascade? -/
def refDoomed (db : DB) (tid : Nat) : Option Nat → Bool
  | none => false
  | some i =>
      match findMsg db i with
      | some m => msgRowDoomed db tid m
      | none => false

/-- Deleting a `Message`: the cascade removes the row, its replies
(transitively), and every notification / history row whose `message` FK is
collected. -/
def delete_message (db : DB) (tid : Nat) : DB :=
  { messages := db.messages.filter (fun m => !msgRowDoomed db tid m)
  , notifications := db.notifications.filter
      (fun n => !refDoomed db tid n.messageId)
  , histories := db.histories.filter
      (fun h => !refDoomed db tid (some h.messageId)) }

/-- A database connection handle for the `transactional` decorator
(`python-decorators-0x01/2-transactional.py`): `committed` is the durable
state, `working` the state the wrapped function mutates.  `db.begin()`
starts the transaction (no state change), `db.commit()` makes the working
state durable, `db.rollback()` restores the working state from the durable
one. -/
structure DBConn (σ : Type) where
  committed : σ
  working : σ
deriving Repr, DecidableEq

/-- `db.begin()`. -/
def DBConn.beginTx (db : DBConn σ) : DBConn σ := db

/-- `db.commit()`. -/
def DBConn.commitTx (db : DBConn σ) : DBConn σ := ⟨db.working, db.working⟩

/-- `db.rollback()`. -/
def DBConn.rollbackTx (db : DBConn σ) : DBConn σ := ⟨db.committed, db.committed⟩

/-- The `transactional` decorator (`2-transactional.py`): begin, run the
wrapped function, commit on success and return the result, roll back on any
exception and re-raise it.  The wrapped function's queries act on the
in-transaction working state (`f : σ → σ × Except ε ρ`): inside a
transaction nothing becomes durable except through `commit`. -/
def transactional (f : σ → σ × Except ε ρ) (db : DBConn σ) :
    DBConn σ × Except ε ρ :=
  let db1 := DBConn.beginTx db
  let wr := f db1.working
  match wr.2 with
  | Except.ok r => (DBConn.commitTx ⟨db1.committed, wr.1⟩, Except.ok r)
  | Except.error e => (DBConn.rollbackTx ⟨db1.committed, wr.1⟩, Except.error e)

/-- The retry loop of `retry_on_failure` (`3-retry_on_failure.py`).  The
wrapped function is modelled as `f : Nat → Except ε ρ`, giving the outcome
of its k-th call; the accumulator mirrors `last_exception` (initially
`None`).  When the loop exhausts its attempts the decorator executes
`raise last_exception`; the raised value is `some e` after at least one
failing attempt and `none` (Python: `raise None`, a `TypeError`) when zero
attempts ran.  `time.sleep(delay)` is elided: it does not affect results. -/
def retryGo (f : Nat → Except ε ρ) : Nat → Nat → Option ε →
    Nat × Except (Option ε) ρ
  | 0, calls, last => (calls, Except.error last)
  | n + 1, calls, _ =>
      match f calls with
      | Except.ok v => (calls + 1, Except.ok v)
      | Except.error e => retryGo f n (calls + 1) (some e)

/-- `retry_on_failure(retries, delay)` applied to `f`, returning the number
of calls actually made to `f` together with the wrapper's outcome. -/
def retry_on_failure (retries : Nat) (f : Nat → Except ε ρ) :
    Nat × Except (Option ε) ρ :=
  retryGo f retries 0 none

/-- One call through the `cache_query` decorator (`4-cache_query.py`) with
the cache as an association list keyed by the `query` keyword argument: a
hit returns the stored result without executing the wrapped function; a miss
executes it and stores the result.  The returned flag records whether the
wrapped function was executed. -/
def cache_query (f : String → ρ) (cache : List (String × ρ)) (query : String) :
    ρ × List (String × ρ) × Bool :=
  match cache.lookup query with
  | some v => (v, cache, false)
  | none =>
      let r := f query
      (r, (query, r) :: cache, true)

/-- A sequence of calls to the cache-decorated fetch function, threading the
cache; yields for each call its result and whether the wrapped function
executed. -/
def runCached (f : String → ρ) : List String → List (String × ρ) →
    List (ρ × Bool)
  | [], _ => []
  | q :: qs, cache =>
      let rcb := cache_query f cache q
      (rcb.1, rcb.2.2) :: runCached f qs rcb.2.1

/-- The memoisation behaviour in the spec's words, threading the set of
queries already seen: every call returns the fetch result for its query, and
the wrapped function executes exactly on the first occurrence of each
query. -/
def specRun (f : String → ρ) : List String → List String → List (ρ × Bool)
  | [], _ => []
  | q :: qs, seen => (f q, !seen.contains q) :: specRun f qs (q :: seen)

/-- The subject value `Message.save` actually writes: the instance's subject
after the reply-subject rewrite. -/
def savedSubject (x : MsgIn) : String :=
  match x.parent with
  | some p => if strBegins "Re: " x.subject then x.subject else "Re: " ++ p.subject
  | none => x.subject

/-! ### Concrete fixtures used by counterexamples, failing inputs and
witnesses -/

/-- Test user. -/
def uA : User := ⟨1, "alice"⟩

/-- Test user. -/
def uB : User := ⟨2, "bob"⟩

/-- Test user. -/
def uC : User := ⟨3, "carol"⟩

/-- A stored root message from `uA` to `uB`. -/
def rootRow : MsgRow :=
  ⟨1, uA, uB, "Hi", "hello there", false, false, none⟩

/-- Database holding just `rootRow`. -/
def dbOneMsg : DB := ⟨[rootRow], [], []⟩

/-- An in-memory reply to `rootRow` from `uB` to `uC` — a third party, so the
receiver differs from the parent message's sender. -/
def replyBtoC : MsgIn :=
  ⟨none, uB, uC, "Re: Hi", "a reply", false, false, some rootRow⟩

/-- The stored message of the repository's own
`test_no_notification_on_message_update` scenario. -/
def rowOrig : MsgRow :=
  ⟨1, uA, uB, "Original Subject", "Original content", false, false, none⟩

/-- Database holding just `rowOrig`. -/
def dbOrig : DB := ⟨[rowOrig], [], []⟩

/-- The in-memory instance of that test after
`message.subject = 'Updated Subject'; message.is_read = True`. -/
def instUpdated : MsgIn :=
  ⟨some 1, uA, uB, "Updated Subject", "Original content", true, false, none⟩

/-- A stored root message with subject `"X"`. -/
def parentX : MsgRow :=
  ⟨1, uA, uB, "X", "p", false, false, none⟩

/-- A stored reply to `parentX`; its subject was normalised to `"Re: X"` when
it was created. -/
def replyRowReX : MsgRow :=
  ⟨2, uB, uA, "Re: X", "c", false, false, some 1⟩

/-- Database holding `parentX` and its reply. -/
def dbReply : DB := ⟨[parentX, replyRowReX], [], []⟩

/-- The reply loaded into memory with its subject changed to `"Y"` — a value
that differs from the stored `"Re: X"` but is mapped back to it by the
reply-subject rewrite. -/
def instSubjY : MsgIn :=
  ⟨some 2, uB, uA, "Y", "c", false, false, some parentX⟩

/-! ### Helper lemmas about the save pipeline -/

/-- The reply-subject rewrite only replaces the subject (by `savedSubject`);
all other fields are untouched. -/
theorem reply_subject_adjust_spec (x : MsgIn) :
    reply_subject_adjust x = { x with subject := savedSubject x } := by
  obtain ⟨pk, s, r, subj, c, ir, e, par⟩ := x
  cases par
  · rfl
  · simp only [reply_subject_adjust, savedSubject]
    split <;> rfl

/-- `handle_reply_subject` is the rewrite for unsaved instances and the
identity otherwise. -/
theorem handle_reply_subject_spec (x : MsgIn) :
    handle_reply_subject x =
      { x with subject := match x.pk with
                          | none => savedSubject x
                          | some _ => x.subject } := by
  obtain ⟨pk, s, r, subj, c, ir, e, par⟩ := x
  cases pk
  · exact reply_subject_adjust_spec _
  · rfl

/-! ### C6 — the transactional wrapper -/

/-- Claim C6: the transactional wrapper is atomic.  If the wrapped function
returns normally the wrapper commits and returns its result; if it raises,
the wrapper rolls back — both the durable and the working state equal the
pre-call committed state — and re-raises the same exception. -/
theorem transactional_atomic {σ ε ρ : Type} (f : σ → σ × Except ε ρ)
    (db : DBConn σ) :
    (∀ w r, f (DBConn.beginTx db).working = (w, Except.ok r) →
       transactional f db = (DBConn.commitTx ⟨db.committed, w⟩, Except.ok r)) ∧
    (∀ w e, f (DBConn.beginTx db).working = (w, Except.error e) →
       (transactional f db).2 = Except.error e ∧
       (transactional f db).1.committed = db.committed ∧
       (transactional f db).1.working = db.committed) := by
  constructor
  · intro w r h
    have h' : f db.working = (w, Except.ok r) := h
    simp [transactional, DBConn.beginTx, h']
  · intro w e h
    have h' : f db.working = (w, Except.error e) := h
    simp [transactional, DBConn.beginTx, h', DBConn.rollbackTx]

/-- Witness for `transactional_atomic` at a concrete failing call: the
working state was mutated before the exception, yet the wrapper's final
state is the original committed one. -/
theorem transactional_atomic_witness :
    (transactional
        (fun w => (w + 1, (Except.error "boom" : Except String Nat)))
        (⟨5, 5⟩ : DBConn Nat)).2 = Except.error "boom" ∧
    (transactional
        (fun w => (w + 1, (Except.error "boom" : Except String Nat)))
        (⟨5, 5⟩ : DBConn Nat)).1.committed = 5 ∧
    (transactional
        (fun w => (w + 1, (Except.error "boom" : Except String Nat)))
        (⟨5, 5⟩ : DBConn Nat)).1.working = 5 :=
  (transactional_atomic _ _).2 6 "boom" rfl

/-! ### C7 — the retry decorator -/

/-- The retry loop makes at most as many calls as it has attempts left. -/
theorem retryGo_le {ε ρ : Type} (f : Nat → Except ε ρ) :
    ∀ n calls last, (retryGo f n calls last).1 ≤ calls + n := by
  intro n
  induction n with
  | zero => intro calls last; simp [retryGo]
  | succ k ih =>
      intro calls last
      unfold retryGo
      cases hf : f calls with
      | ok v =>
          show calls + 1 ≤ calls + (k + 1)
          omega
      | error e =>
          have h := ih (calls + 1) (some e)
          show (retryGo f k (calls + 1) (some e)).1 ≤ calls + (k + 1)
          omega

/-- If every remaining attempt fails, the loop consumes them all and ends
with the last attempt's exception. -/
theorem retryGo_all_fail {ε ρ : Type} (f : Nat → Except ε ρ) (es : Nat → ε) :
    ∀ n calls last, 1 ≤ n →
      (∀ k, k < n → f (calls + k) = Except.error (es (calls + k))) →
      retryGo f n calls last = (calls + n, Except.error (some (es (calls + n - 1)))) := by
  intro n
  induction n with
  | zero => intro calls last h; omega
  | succ m ih =>
      intro calls last _ hall
      have h0 : f calls = Except.error (es calls) := by
        have := hall 0 (by omega)
        simpa using this
      unfold retryGo
      rw [h0]
      by_cases hm : m = 0
      · subst hm
        simp [retryGo]
      · have h1 : 1 ≤ m := by omega
        have hrec := ih (calls + 1) (some (es calls)) h1 (fun k hk => by
          have := hall (k + 1) (by omega)
          have harith : calls + (k + 1) = calls + 1 + k := by omega
          rw [harith] at this
          exact this)
        show retryGo f m (calls + 1) (some (es calls)) =
          (calls + (m + 1), Except.error (some (es (calls + (m + 1) - 1))))
        rw [hrec]
        have h2 : calls + 1 + m = calls + (m + 1) := by omega
        rw [h2]

/-- If the first `j` attempts fail and attempt `j` succeeds, the loop stops
after `j + 1` calls with that success. -/
theorem retryGo_first_ok {ε ρ : Type} (f : Nat → Except ε ρ) (v : ρ) :
    ∀ j n calls last, j < n →
      (∀ k, k < j → ∃ e, f (calls + k) = Except.error e) →
      f (calls + j) = Except.ok v →
      retryGo f n calls last = (calls + j + 1, Except.ok v) := by
  intro j
  induction j with
  | zero =>
      intro n calls last hn hpre hok
      cases n with
      | zero => omega
      | succ m =>
          unfold retryGo
          rw [show f calls = Except.ok v by simpa using hok]
  | succ i ih =>
      intro n calls last hn hpre hok
      cases n with
      | zero => omega
      | succ m =>
          obtain ⟨e, he⟩ := hpre 0 (by omega)
          unfold retryGo
          rw [show f calls = Except.error e by simpa using he]
          have hrec := ih m (calls + 1) (some e) (by omega)
            (fun k hk => by
              obtain ⟨e2, he2⟩ := hpre (k + 1) (by omega)
              refine ⟨e2, ?_⟩
              have harith : calls + (k + 1) = calls + 1 + k := by omega
              rw [harith] at he2
              exact he2)
            (by
              have harith : calls + (i + 1) = calls + 1 + i := by omega
              rw [harith] at hok
              exact hok)
          show retryGo f m (calls + 1) (some e) = (calls + (i + 1) + 1, Except.ok v)
          rw [hrec]
          have h2 : calls + 1 + i + 1 = calls + (i + 1) + 1 := by omega
          rw [h2]

/-- Claim C7 counterexample: with `retries = 0` a function that never raises
is called zero times — not exactly once — and the wrapper does not return its
result: it executes `raise last_exception` with `last_exception` still
`None`. -/
theorem retry_zero_retries_cex :
    retry_on_failure 0 (fun _ => (Except.ok 42 : Except Nat Nat)) =
      (0, Except.error none) ∧ (0 : Nat) ≠ 1 :=
  ⟨rfl, by decide⟩

/-- Claim C7 (amended: for `retries ≥ 1`): `retry_on_failure` calls the
wrapped function at most `retries` times; if every attempt raises, it makes
exactly `retries` calls and re-raises the exception of the last attempt; if
the first `j` attempts raise and attempt `j` succeeds (in particular `j = 0`
for a function that never raises), it makes exactly `j + 1` calls and returns
that attempt's result unchanged. -/
theorem retry_on_failure_spec {ε ρ : Type} (retries : Nat) (f : Nat → Except ε ρ)
    (h : 1 ≤ retries) :
    (retry_on_failure retries f).1 ≤ retries ∧
    (∀ es : Nat → ε, (∀ k, k < retries → f k = Except.error (es k)) →
       retry_on_failure retries f = (retries, Except.error (some (es (retries - 1))))) ∧
    (∀ j v, j < retries → (∀ k, k < j → ∃ e, f k = Except.error e) →
       f j = Except.ok v →
       retry_on_failure retries f = (j + 1, Except.ok v)) := by
  refine ⟨?_, ?_, ?_⟩
  · have := retryGo_le f retries 0 none
    simpa [retry_on_failure] using this
  · intro es hall
    have := retryGo_all_fail f es retries 0 none h (fun k hk => by simpa using hall k hk)
    simpa [retry_on_failure] using this
  · intro j v hj hpre hok
    have := retryGo_first_ok f v j retries 0 none hj
      (fun k hk => by simpa using hpre k hk) (by simpa using hok)
    simpa [retry_on_failure] using this

/-- Witness for `retry_on_failure_spec`: a function failing once then
succeeding, run with `retries = 2`, is called twice and its result is
returned. -/
theorem retry_on_failure_spec_witness :
    retry_on_failure 2
        (fun k => if k == 0 then (Except.error "boom" : Except String Nat)
                  else Except.ok 5) =
      (2, Except.ok 5) :=
  (retry_on_failure_spec 2 _ (by omega)).2.2 1 5 (by omega)
    (fun k hk => ⟨"boom", by
      have hk0 : k = 0 := by omega
      subst hk0
      rfl⟩) rfl

/-! ### C8 — the query cache -/

/-- Generalised invariant run: if the cache's key set is exactly the set of
seen queries and every cached value is the fetch result for its key, the
cached run coincides with the spec run. -/
theorem runCached_eq_specRun_aux {ρ : Type} (f : String → ρ) (qs : List String) :
    ∀ (cache : List (String × ρ)) (seen : List String),
      (∀ q, (cache.lookup q).isSome = seen.contains q) →
      (∀ q v, cache.lookup q = some v → v = f q) →
      runCached f qs cache = specRun f qs seen := by
  induction qs with
  | nil => intro cache seen _ _; rfl
  | cons q qs ih =>
      intro cache seen hmem hval
      unfold runCached specRun cache_query
      cases hl : cache.lookup q with
      | none =>
          have hseen : seen.contains q = false := by
            have := hmem q
            rw [hl] at this
            simpa using this.symm
          simp only [hl, hseen, Bool.not_false]
          congr 1
          apply ih
          · intro q2
            by_cases hq : q2 = q
            · subst hq
              simp [List.lookup]
            · simp only [List.lookup, List.contains_cons]
              have hbeq : (q2 == q) = false := by simpa using hq
              rw [hbeq]
              simpa [hbeq] using hmem q2
          · intro q2 v hv
            by_cases hq : q2 = q
            · subst hq
              simp [List.lookup] at hv
              exact hv.symm
            · have hbeq : (q2 == q) = false := by simpa using hq
              simp only [List.lookup, hbeq] at hv
              exact hval q2 v hv
      | some v =>
          have hseen : seen.contains q = true := by
            have := hmem q
            rw [hl] at this
            simpa using this.symm
          have hv : v = f q := hval q v hl
          simp only [hl, hseen, Bool.not_true, hv]
          congr 1
          apply ih
          · intro q2
            by_cases hq : q2 = q
            · subst hq
              simp [hl, List.contains_cons]
            · simp only [List.contains_cons]
              have hbeq : (q2 == q) = false := by simpa using hq
              rw [hbeq]
              simpa using hmem q2
          · exact hval

/-- Claim C8: the cache memoizes by query string.  Running any sequence of
calls from an empty cache gives exactly the spec behaviour — every call
returns the fetch result of its query, and the wrapped function executes
exactly on the first occurrence of each query; moreover a single call is a
pure cache hit (no execution, cache unchanged) exactly when the query is
cached, and a miss executes and stores. -/
theorem cache_query_memoizes {ρ : Type} (f : String → ρ) (qs : List String) :
    runCached f qs [] = specRun f qs [] ∧
    (∀ (cache : List (String × ρ)) q v, cache.lookup q = some v →
       cache_query f cache q = (v, cache, false)) ∧
    (∀ (cache : List (String × ρ)) q, cache.lookup q = none →
       cache_query f cache q = (f q, (q, f q) :: cache, true)) := by
  refine ⟨?_, ?_, ?_⟩
  · exact runCached_eq_specRun_aux f qs [] [] (fun q => rfl) (fun q v h => by cases h)
  · intro cache q v h
    simp [cache_query, h]
  · intro cache q h
    simp [cache_query, h]

/-- Witness for `cache_query_memoizes`: a repeated query is answered from
the cache without re-executing the wrapped function. -/
theorem cache_query_memoizes_witness :
    cache_query (fun q => q.length) [("users", 5)] "users" = (5, [("users", 5)], false) :=
  (cache_query_memoizes (fun q => q.length) []).2.1 [("users", 5)] "users" 5 rfl

/-! ### C10 — empty message_ids list -/

/-- Claim C10: `UnreadMessagesManager.mark_as_read` treats an empty
`message_ids` list exactly like no list (the empty list is falsy in the
guard), so it marks every unread message addressed to the user as read. -/
theorem mark_as_read_empty_ids (db : DB) (u : User) :
    unread_mark_as_read db u (some []) = unread_mark_as_read db u none ∧
    ∀ m ∈ (unread_mark_as_read db u (some [])).1.messages,
      m.receiver.uid = u.uid → m.isRead = true := by
  constructor
  · rfl
  · intro m hm hrecv
    simp only [unread_mark_as_read, List.mem_map] at hm
    obtain ⟨m0, _, rfl⟩ := hm
    by_cases hc : unreadSel u (some []) m0 = true
    · rw [if_pos hc]
    · rw [if_neg hc] at hrecv ⊢
      have hbeq : (m0.receiver.uid == u.uid) = true := by
        simpa using hrecv
      have hnr : (!m0.isRead) = false := by
        by_contra hx
        apply hc
        have hx' : (!m0.isRead) = true := by simpa using hx
        simp [unreadSel, hx', hbeq, pyTruthyIds]
      simpa using hnr

/-- Witness for `mark_as_read_empty_ids`: the single unread message to `uB`
is read after `mark_as_read(uB, [])`. -/
theorem mark_as_read_empty_ids_witness :
    ({ rootRow with isRead := true } : MsgRow).isRead = true :=
  (mark_as_read_empty_ids dbOneMsg uB).2 { rootRow with isRead := true }
    (by
      have hms : (unread_mark_as_read dbOneMsg uB (some [])).1.messages =
          [{ rootRow with isRead := true }] := by decide
      rw [hms]
      exact List.mem_singleton_self _)
    (by decide)

/-! ### C1 — notifications on message creation -/

/-- Claim C1 counterexample: creating a reply whose receiver is not the
parent message's sender inserts two Notification rows for the new message
(one `'message'` notification for the receiver, one `'reply'` notification
for the parent's sender) — not exactly one. -/
theorem reply_two_notifications_cex :
    (messageSaveCreate dbOneMsg replyBtoC).1.notifications.length = 2 ∧
    (messageSaveCreate dbOneMsg replyBtoC).1.notifications.map
        (fun n => n.messageId) = [some 2, some 2] ∧
    (2 : Nat) ≠ 1 :=
  ⟨by decide, by decide, by decide⟩

/-- Claim C1 (amended): a newly created message gets exactly one notification
when it is a root message, or a reply whose receiver is the parent message's
sender; it gets exactly two when it is a reply whose receiver differs from
the parent message's sender. -/
theorem notification_count_on_create (db : DB) (inst : MsgIn) :
    (messageSaveCreate db inst).1.notifications.length =
      db.notifications.length +
        (match inst.parent with
         | some p => if inst.receiver.uid ≠ p.sender.uid then 2 else 1
         | none => 1) := by
  unfold messageSaveCreate
  simp only [List.length_append]
  congr 1
  rw [reply_subject_adjust_spec, handle_reply_subject_spec]
  cases hp : inst.parent with
  | none => simp [create_message_notification, hp]
  | some p =>
      by_cases hr : inst.receiver.uid = p.sender.uid
      · simp [create_message_notification, hp, hr]
      · have hb : (inst.receiver.uid != p.sender.uid) = true := by
          simpa using hr
        simp [create_message_notification, hp, hr, hb]

/-! ### C2 — notification on message update -/

/-- Claim C2, evaluated at the repository's own test scenario
(`test_no_notification_on_message_update`: subject changed from
`"Original Subject"` to `"Updated Subject"`, `is_read` set, then `save()`):
the `pre_save` handler `log_message_edit` inserts exactly one Notification,
of type `'edit'`, so the save of an existing message does create a
notification — the code contradicts its own test, which asserts zero. -/
theorem update_creates_edit_notification :
    (match messageSave dbOrig instUpdated false with
     | some dr => dr.1.notifications.map (fun n => n.ntype)
     | none => []) = ["edit"] ∧
    dbOrig.notifications.length = 0 :=
  ⟨by decide, by decide⟩

/-! ### C9 — HTTP statuses for thread access -/

/-- Claim C9 counterexample: an authenticated user who is neither sender nor
receiver requests the HTML thread view `message_thread`; the view renders
the access-denied template with a plain `render(...)`, so the response
status is 200, not 403. -/
theorem thread_view_access_denied_cex :
    (message_thread dbOneMsg uC 1).1.status = 200 ∧
    (message_thread dbOneMsg uC 1).1.body = "messaging/access_denied.html" ∧
    (200 : Nat) ≠ 403 :=
  ⟨by decide, by decide, by decide⟩

/-- Claim C9 (amended): a missing message id yields 404 in both thread
views; a requester who is neither sender nor receiver gets 403 from the JSON
API `conversation_thread_api`, while the HTML view `message_thread` responds
200 rendering the access-denied template. -/
theorem thread_status_spec (db : DB) (u : User) (mid : Nat) :
    (findMsg db mid = none →
       (message_thread db u mid).1.status = 404 ∧
       (conversation_thread_api db u mid).status = 404) ∧
    (∀ root, findMsg db mid = some root → root.sender.uid ≠ u.uid →
       root.receiver.uid ≠ u.uid →
       (conversation_thread_api db u mid).status = 403 ∧
       (message_thread db u mid).1.status = 200 ∧
       (message_thread db u mid).1.body = "messaging/access_denied.html") := by
  constructor
  · intro h
    constructor
    · simp [message_thread, h]
    · simp [conversation_thread_api, h]
  · intro root h hs hr
    have hsb : (root.sender.uid != u.uid) = true := by simpa using hs
    have hrb : (root.receiver.uid != u.uid) = true := by simpa using hr
    refine ⟨?_, ?_, ?_⟩
    · simp [conversation_thread_api, h, hsb, hrb]
    · simp [message_thread, h, hsb, hrb]
    · simp [message_thread, h, hsb, hrb]

/-- Witness for `thread_status_spec` at a concrete database: third party
`uC` requesting message 1, and a missing id. -/
theorem thread_status_spec_witness :
    (conversation_thread_api dbOneMsg uC 1).status = 403 ∧
    (message_thread dbOneMsg uC 1).1.status = 200 ∧
    (message_thread dbOneMsg uC 1).1.body = "messaging/access_denied.html" :=
  (thread_status_spec dbOneMsg uC 1).2 rootRow (by decide) (by decide) (by decide)

/-! ### C3 — message edit history -/

/-- The `edited` flag does not influence the saved subject. -/
theorem savedSubject_edited (x : MsgIn) :
    savedSubject { x with edited := true } = savedSubject x := rfl

/-- Claim C3 counterexample: the stored reply (id 2) has subject `"Re: X"`;
the instance being saved changes the subject to `"Y"` with content
unchanged, so the claim predicts a history row; but `Message.save` rewrites
the subject back to `"Re: X"` before the `pre_save` comparison, and no
history row is created. -/
theorem history_missing_on_subject_change_cex :
    findMsg dbReply 2 = some replyRowReX ∧
    instSubjY.pk = some 2 ∧
    instSubjY.subject ≠ replyRowReX.subject ∧
    instSubjY.content = replyRowReX.content ∧
    (match messageSave dbReply instSubjY false with
     | some dr => dr.1.histories.length
     | none => 99) = 0 :=
  ⟨by decide, by decide, by decide, by decide, by decide⟩

/-- Claim C3 (amended): a save of an existing message creates a
MessageHistory row iff the stored content differs from the instance's
content, or the stored subject differs from the subject actually saved —
the instance's subject after the reply-subject rewrite (`savedSubject`); the
row snapshots the stored subject and content with `edited_by` the sender.
A first save never creates a history row. -/
theorem message_history_spec (db : DB) (inst : MsgIn) (i : Nat) (orig : MsgRow)
    (hpk : inst.pk = some i) (horig : findMsg db i = some orig) :
    (∃ d, messageSave db inst false = some (d, i) ∧
       d.histories = db.histories ++
         (if orig.content != inst.content || orig.subject != savedSubject inst
          then [{ messageId := i, oldSubject := orig.subject
                , oldContent := orig.content, editedBy := inst.sender }]
          else [])) ∧
    (∀ inst0 : MsgIn, (messageSaveCreate db inst0).1.histories = db.histories) := by
  constructor
  · simp only [messageSave, hpk, messageSaveUpdate, horig, Option.map_some']
    refine ⟨_, rfl, ?_⟩
    by_cases hcond : (orig.content != inst.content || orig.subject != inst.subject) = true
    · rw [if_pos hcond, reply_subject_adjust_spec]
      simp only [log_message_edit, hpk, horig, savedSubject_edited]
      congr 1
      rw [apply_ite Prod.fst]
      rfl
    · rw [if_neg hcond, reply_subject_adjust_spec]
      simp only [log_message_edit, hpk, horig]
      congr 1
      rw [apply_ite Prod.fst]
  · intro inst0
    rfl

/-- Witness for `message_history_spec`: the concrete subject-changing update
of `instUpdated` against `dbOrig`. -/
theorem message_history_spec_witness :
    (∃ d, messageSave dbOrig instUpdated false = some (d, 1) ∧
       d.histories = dbOrig.histories ++
         (if rowOrig.content != instUpdated.content ||
             rowOrig.subject != savedSubject instUpdated
          then [{ messageId := 1, oldSubject := rowOrig.subject
                , oldContent := rowOrig.content, editedBy := instUpdated.sender }]
          else [])) ∧
    (∀ inst0 : MsgIn, (messageSaveCreate dbOrig inst0).1.histories = dbOrig.histories) :=
  message_history_spec dbOrig instUpdated 1 rowOrig rfl rfl

/-! ### C4 — idempotence of the mark-as-read operations -/

/-- Replacing every row with a given id by a fixed row with that id is
idempotent. -/
theorem map_replace_idem (l : List MsgRow) (i : Nat) (r : MsgRow)
    (hr : (r.id == i) = true) :
    (l.map (fun m => if m.id == i then r else m)).map
        (fun m => if m.id == i then r else m) =
      l.map (fun m => if m.id == i then r else m) := by
  rw [List.map_map]
  apply List.map_congr_left
  intro a _
  by_cases ha : (a.id == i) = true
  · simp [Function.comp, ha, hr]
  · simp [Function.comp, ha]

/-- Finding a row by id after replacing every row with that id. -/
theorem find_after_replace (l : List MsgRow) (i : Nat) (r : MsgRow)
    (hr : (r.id == i) = true) :
    (l.map (fun m => if m.id == i then r else m)).find? (fun m => m.id == i) =
      (l.find? (fun m => m.id == i)).map (fun _ => r) := by
  induction l with
  | nil => rfl
  | cons a t ih =>
      by_cases ha : (a.id == i) = true
      · simp [List.find?, ha, hr]
      · simp only [List.map_cons, if_neg ha]
        rw [List.find?_cons_of_neg _ (by simpa using ha),
          List.find?_cons_of_neg _ (by simpa using ha)]
        exact ih

/-- A row that is already read is unchanged by setting its read flag. -/
theorem set_isRead_fixed (x : MsgRow) (h : x.isRead = true) :
    { x with isRead := true } = x := by
  obtain ⟨a, b, c, d, e, ir, g, p⟩ := x
  simp at h
  rw [h]

/-- A row that is already read never matches the unread queryset. -/
theorem unreadSel_updated (u : User) (ids : Option (List Nat)) (a : MsgRow) :
    unreadSel u ids { a with isRead := true } = false := by
  simp [unreadSel]

/-- One bulk-update step applied to an already-updated row is the identity:
the per-row update of `mark_as_read` is idempotent. -/
theorem mark_step_idem (u : User) (ids : Option (List Nat)) (a : MsgRow) :
    (if unreadSel u ids (if unreadSel u ids a then { a with isRead := true } else a)
     then { (if unreadSel u ids a then { a with isRead := true } else a) with
              isRead := true }
     else (if unreadSel u ids a then { a with isRead := true } else a)) =
      (if unreadSel u ids a then { a with isRead := true } else a) := by
  by_cases hsel : unreadSel u ids a = true
  · rw [if_pos hsel, if_neg (by rw [unreadSel_updated]; exact Bool.false_ne_true)]
  · rw [if_neg hsel]
    rw [if_neg hsel]

/-- The rewrite does not change the instance's read flag. -/
theorem reply_subject_adjust_isRead (x : MsgIn) :
    (reply_subject_adjust x).isRead = x.isRead := by
  rw [reply_subject_adjust_spec]

/-- The handler does not change the instance's read flag. -/
theorem handle_reply_subject_isRead (x : MsgIn) :
    (handle_reply_subject x).isRead = x.isRead := by
  rw [handle_reply_subject_spec]

/-- Closed form of the message-table effect of `Message.mark_as_read`: the
row with the given id is rewritten with its read flag set; nothing else in
the table changes. -/
theorem message_mark_as_read_messages (db : DB) (mid : Nat) (row : MsgRow)
    (h : findMsg db mid = some row) :
    (message_mark_as_read db mid).messages =
      db.messages.map
        (fun m => if m.id == mid then { row with isRead := true } else m) := by
  have h' : db.messages.find? (fun m => m.id == mid) = some row := h
  have hid : row.id = mid := by simpa using List.find?_some h'
  unfold message_mark_as_read
  rw [h]
  unfold messageSave
  simp only [loadMsg]
  unfold messageSaveUpdate
  rw [hid, h]
  simp only [Option.map_some', ite_true, hid, handle_reply_subject_isRead,
    reply_subject_adjust_isRead, apply_ite MsgIn.isRead, ite_self]

/-- Claim C4: the mark-as-read operations are idempotent on the message
state.  Applying `UnreadMessagesManager.mark_as_read` twice (same user, same
optional id list) produces the same state as applying it once;
`Message.mark_as_read` applied twice leaves the message table as after one
application; and the unread count after the repeated manager application
equals the count after the single one. -/
theorem mark_as_read_idempotent (db : DB) (u : User) (ids : Option (List Nat))
    (mid : Nat) :
    (unread_mark_as_read (unread_mark_as_read db u ids).1 u ids).1 =
      (unread_mark_as_read db u ids).1 ∧
    (message_mark_as_read (message_mark_as_read db mid) mid).messages =
      (message_mark_as_read db mid).messages ∧
    unread_count_for_user (unread_mark_as_read (unread_mark_as_read db u ids).1 u ids).1 u =
      unread_count_for_user (unread_mark_as_read db u ids).1 u := by
  have hmgr : (unread_mark_as_read (unread_mark_as_read db u ids).1 u ids).1 =
      (unread_mark_as_read db u ids).1 := by
    obtain ⟨ms, ns, hs⟩ := db
    simp only [unread_mark_as_read]
    congr 1
    rw [List.map_map]
    apply List.map_congr_left
    intro a _
    exact mark_step_idem u ids a
  refine ⟨hmgr, ?_, congrArg (fun d => unread_count_for_user d u) hmgr⟩
  cases h1 : findMsg db mid with
  | none => simp [message_mark_as_read, h1]
  | some row =>
      have h1' : db.messages.find? (fun m => m.id == mid) = some row := h1
      have hid : row.id = mid := by simpa using List.find?_some h1'
      have hrid : (({ row with isRead := true } : MsgRow).id == mid) = true := by
        simpa using hid
      have hmsgs := message_mark_as_read_messages db mid row h1
      have hfind2 : findMsg (message_mark_as_read db mid) mid =
          some { row with isRead := true } := by
        show (message_mark_as_read db mid).messages.find? (fun m => m.id == mid) =
          some { row with isRead := true }
        rw [hmsgs, find_after_replace _ _ _ hrid, h1', Option.map_some']
      have hmsgs2 := message_mark_as_read_messages (message_mark_as_read db mid) mid
        { row with isRead := true } hfind2
      rw [hmsgs2, hmsgs]
      rw [set_isRead_fixed ({ row with isRead := true }) (by simp)]
      exact map_replace_idem _ _ _ hrid

/-! ### C5 — cascade deletion -/

/-- A message that survives the user-delete cascade is not directly tied to
the user. -/
theorem userDoomed_direct (db : DB) (u : User) (n : Nat) (m : MsgRow)
    (h : userDoomed db u n m = false) :
    m.sender.uid ≠ u.uid ∧ m.receiver.uid ≠ u.uid := by
  cases n with
  | zero =>
      simp [userDoomed] at h
      exact ⟨h.1, h.2⟩
  | succ k =>
      simp [userDoomed] at h
      exact ⟨h.1.1, h.1.2⟩

/-- The deleted message itself is collected at any fuel. -/
theorem msgDoomed_self (db : DB) (tid : Nat) (n : Nat) (m : MsgRow)
    (h : (m.id == tid) = true) : msgDoomed db tid n m = true := by
  cases n <;> simp [msgDoomed, h]

/-- Claim C5: cascade deletion removes every dependent row.  After deleting
a user, no surviving message has the user as sender or receiver, no
surviving notification belongs to the user, and no surviving history row was
edited by the user.  After deleting a message (present in the table), no
surviving notification or history row references it and no surviving message
has it as parent. -/
theorem cascade_delete_spec (db : DB) (u : User) (tid : Nat)
    (htid : (findMsg db tid).isSome = true) :
    (∀ m ∈ (delete_user db u).messages, m.sender.uid ≠ u.uid ∧ m.receiver.uid ≠ u.uid) ∧
    (∀ n ∈ (delete_user db u).notifications, n.user.uid ≠ u.uid) ∧
    (∀ h ∈ (delete_user db u).histories, h.editedBy.uid ≠ u.uid) ∧
    (∀ n ∈ (delete_message db tid).notifications, n.messageId ≠ some tid) ∧
    (∀ h ∈ (delete_message db tid).histories, h.messageId ≠ tid) ∧
    (∀ m ∈ (delete_message db tid).messages, m.parentId ≠ some tid) := by
  obtain ⟨t, ht⟩ := Option.isSome_iff_exists.mp htid
  have ht' : db.messages.find? (fun m => m.id == tid) = some t := ht
  have htt : (t.id == tid) = true := by simpa using List.find?_some ht'
  refine ⟨?_, ?_, ?_, ?_, ?_, ?_⟩
  · intro m hm
    simp only [delete_user] at hm
    have hd := (List.mem_filter.mp hm).2
    have hdoom : userMsgDoomed db u m = false := by simpa using hd
    exact userDoomed_direct db u _ m hdoom
  · intro n hn
    simp only [delete_user] at hn
    have hd := (List.mem_filter.mp hn).2
    simp at hd
    exact hd.1
  · intro h hh
    simp only [delete_user] at hh
    have hd := (List.mem_filter.mp hh).2
    simp at hd
    exact hd.1
  · intro n hn
    simp only [delete_message] at hn
    have hd := (List.mem_filter.mp hn).2
    have hdoom : refDoomed db tid n.messageId = false := by simpa using hd
    intro heq
    rw [heq] at hdoom
    simp only [refDoomed, ht, msgRowDoomed] at hdoom
    rw [msgDoomed_self db tid _ t htt] at hdoom
    simp at hdoom
  · intro h hh
    simp only [delete_message] at hh
    have hd := (List.mem_filter.mp hh).2
    have hdoom : refDoomed db tid (some h.messageId) = false := by simpa using hd
    intro heq
    rw [heq] at hdoom
    simp only [refDoomed, ht, msgRowDoomed] at hdoom
    rw [msgDoomed_self db tid _ t htt] at hdoom
    simp at hdoom
  · intro m hm
    simp only [delete_message] at hm
    have hmem := (List.mem_filter.mp hm).1
    have hd := (List.mem_filter.mp hm).2
    have hdoom : msgRowDoomed db tid m = false := by simpa using hd
    intro hpar
    cases hlen : db.messages.length with
    | zero =>
        have hnil : db.messages = [] := List.length_eq_zero.mp hlen
        rw [hnil] at hmem
        exact absurd hmem (List.not_mem_nil m)
    | succ k =>
        have hbind : m.parentId.bind (findMsg db) = some t := by
          rw [hpar]
          exact ht
        simp only [msgRowDoomed, hlen, msgDoomed, hbind] at hdoom
        rw [msgDoomed_self db tid k t htt] at hdoom
        simp at hdoom

/-- Witness for `cascade_delete_spec` at the one-message database: deleting
`uA` and deleting message 1. -/
theorem cascade_delete_spec_witness :
    (∀ m ∈ (delete_user dbOneMsg uA).messages,
       m.sender.uid ≠ uA.uid ∧ m.receiver.uid ≠ uA.uid) ∧
    (∀ n ∈ (delete_user dbOneMsg uA).notifications, n.user.uid ≠ uA.uid) ∧
    (∀ h ∈ (delete_user dbOneMsg uA).histories, h.editedBy.uid ≠ uA.uid) ∧
    (∀ n ∈ (delete_message dbOneMsg 1).notifications, n.messageId ≠ some 1) ∧
    (∀ h ∈ (delete_message dbOneMsg 1).histories, h.messageId ≠ 1) ∧
    (∀ m ∈ (delete_message dbOneMsg 1).messages, m.parentId ≠ some 1) :=
  cascade_delete_spec dbOneMsg uA 1 (by decide)
